import Mathlib

/-!
Verification of the prayer-time scheduling core of the athany application
(src/athany.py): the calendar cache (`fetch_calender_data`), the day and
rollover resolution (`get_main_layout_and_tomorrow_prayers`) and the
upcoming-prayer queue manipulation of the main polling loop
(`display_main_window`).

Embedding choices.  A Gregorian date is a (year, month, day) triple and a
Python `datetime` is a date plus seconds since midnight; Python compares
datetimes lexicographically, which `DateTime.Lt` mirrors.  A time-of-day
string such as "20:00 (EET)" is represented by the seconds-since-midnight
value of its "HH:MM" prefix (the code always strips the suffix with
`split()[0]` before parsing).  A Python dict keeps insertion order, so the
`timings` dict of a day becomes an association list; the in-place update
`current_times[k] = datetime(...)` performed by the binding loop is
modelled by `TimingVal`, which distinguishes the raw time-of-day string
from the written-back datetime object.  The filesystem (one JSON file per
(year, month, city, country) key), the persisted `-city-`/`-country-`
settings and the network are explicit state: `St` plus an oracle
`net : CacheKey → NetResult`, with an event trace (`Ev`) recording cache
lookups, HTTP calls, file writes and file deletions.  `sys.exit` after
clearing the location settings and an unhandled Python exception
(IndexError, KeyError, TypeError on `None`, json decode error) are the
`Outcome.exitCleared` and `Outcome.crash` constructors.
-/

structure Date where
  year : Nat
  month : Nat
  day : Nat
deriving DecidableEq, Repr

def isLeapYear (y : Nat) : Bool :=
  (y % 4 == 0 && y % 100 != 0) || y % 400 == 0

def daysInMonth (y m : Nat) : Nat :=
  if m == 2 then (if isLeapYear y then 29 else 28)
  else if m == 4 || m == 6 || m == 9 || m == 11 then 30
  else 31

/-- `now + timedelta(days=1)` on the date part, for valid dates. -/
def nextDate (d : Date) : Date :=
  if d.day < daysInMonth d.year d.month then ⟨d.year, d.month, d.day + 1⟩
  else if d.month < 12 then ⟨d.year, d.month + 1, 1⟩
  else ⟨d.year + 1, 1, 1⟩

structure DateTime where
  date : Date
  sec : Nat
deriving DecidableEq, Repr

/-- Python datetime comparison: lexicographic on (year, month, day, time). -/
def DateTime.Lt (a b : DateTime) : Prop :=
  a.date.year < b.date.year ∨ (a.date.year = b.date.year ∧
    (a.date.month < b.date.month ∨ (a.date.month = b.date.month ∧
      (a.date.day < b.date.day ∨ (a.date.day = b.date.day ∧ a.sec < b.sec)))))

instance (a b : DateTime) : Decidable (DateTime.Lt a b) := by
  unfold DateTime.Lt
  infer_instance

def DateTime.ltb (a b : DateTime) : Bool := decide (DateTime.Lt a b)

def DateTime.leb (a b : DateTime) : Bool := decide (DateTime.Lt a b ∨ a = b)

/-- A value of the `timings` dict: either the raw "HH:MM ..." string of the
API response (kept as parsed seconds since midnight) or the datetime object
the binding loop writes back in place. -/
inductive TimingVal where
  | raw (sec : Nat)
  | bound (t : DateTime)
deriving DecidableEq, Repr

def TimingVal.rawSec : TimingVal → Option Nat
  | TimingVal.raw s => some s
  | TimingVal.bound _ => none

def TimingVal.isRaw : TimingVal → Bool
  | TimingVal.raw _ => true
  | TimingVal.bound _ => false

def TimingVal.secD : TimingVal → Nat
  | TimingVal.raw s => s
  | TimingVal.bound t => t.sec

abbrev Timings := List (String × TimingVal)

/-- One entry of the month response's "data" array (only the part the core
reads: the `timings` dict, in dict insertion order). -/
structure DaySchedule where
  timings : Timings
deriving DecidableEq, Repr

abbrev MonthSchedule := List DaySchedule

def FUROOD_NAMES : List String := ["Fajr", "Dhuhr", "Asr", "Maghrib", "Isha"]

/-- `prayer in FUROOD_NAMES or prayer == "Sunrise"`. -/
def isTracked (p : String) : Bool := FUROOD_NAMES.contains p || p == "Sunrise"

/-- Dict lookup `current_times[k]` on the association list. -/
def lookupTiming (t : Timings) (p : String) : Option TimingVal :=
  match t.find? (fun e => e.1 == p) with
  | some e => some e.2
  | none => none

def allRaw (t : Timings) : Bool := t.all (fun e => e.2.isRaw)

/-- Cache key of one JSON file: "year-month-city-country.json". -/
structure CacheKey where
  year : Nat
  month : Nat
  city : String
  country : String
deriving DecidableEq, Repr

/-- Content of a cached file: parseable JSON, or corrupt. -/
inductive FileContent where
  | good (m : MonthSchedule)
  | malformed
deriving DecidableEq, Repr

/-- What one HTTP request to the calendar API does. -/
inductive NetResult where
  | netError
  | notOk
  | ok (m : MonthSchedule)
deriving DecidableEq, Repr

/-- Result of `fetch_calender_data`: the "RequestError" string, Python
`None` (non-200 status), a parsed month dictionary, or an uncaught
json-decode exception on a corrupt cached file. -/
inductive FetchResult where
  | requestError
  | noData
  | data (m : MonthSchedule)
  | parseError
deriving DecidableEq, Repr

/-- Observable events of the cache layer, in program order. -/
inductive Ev where
  | cacheGet (k : CacheKey)
  | netCall (k : CacheKey)
  | fileWrite (k : CacheKey)
  | fileDelete (k : CacheKey)
deriving DecidableEq, Repr

/-- Ambient state: the on-disk cache and the persisted location settings. -/
structure St where
  disk : List (CacheKey × FileContent)
  city : Option String
  country : Option String
deriving DecidableEq, Repr

def diskGet : List (CacheKey × FileContent) → CacheKey → Option FileContent
  | [], _ => none
  | e :: rest, k => if e.1 == k then some e.2 else diskGet rest k

def diskRemove (disk : List (CacheKey × FileContent)) (k : CacheKey) :
    List (CacheKey × FileContent) :=
  disk.filter (fun e => !(e.1 == k))

/-- src/athany.py lines 151-176.  If no cached file exists for the key the
remote service is called: a raised request exception yields the string
"RequestError", a non-200 status yields `None`, and a successful response
is persisted verbatim before the file is read back.  If the file exists it
is simply loaded (`json.load` raises on a corrupt file: `parseError`). -/
def fetch_calender_data (net : CacheKey → NetResult) (st : St)
    (cit count : String) (year month : Nat) :
    FetchResult × St × List Ev :=
  let k : CacheKey := ⟨year, month, cit, count⟩
  match diskGet st.disk k with
  | some (FileContent.good m) => (FetchResult.data m, st, [Ev.cacheGet k])
  | some FileContent.malformed => (FetchResult.parseError, st, [Ev.cacheGet k])
  | none =>
    match net k with
    | NetResult.netError => (FetchResult.requestError, st, [Ev.cacheGet k, Ev.netCall k])
    | NetResult.notOk => (FetchResult.noData, st, [Ev.cacheGet k, Ev.netCall k])
    | NetResult.ok m =>
      (FetchResult.data m,
       { st with disk := st.disk ++ [(k, FileContent.good m)] },
       [Ev.cacheGet k, Ev.netCall k, Ev.fileWrite k])

/-- The binding loop of lines 226-231: every value of the day's timings
dict is replaced in place by `strptime(v.split()[0] + date)`, a datetime
on the given calendar date.  Fails (as `.split()` would) if a value is not
a raw string. -/
def bindTimings : Timings → Date → Option Timings
  | [], _ => some []
  | (p, v) :: rest, d =>
    match v.rawSec, bindTimings rest d with
    | some s, some bs => some ((p, TimingVal.bound ⟨d, s⟩) :: bs)
    | _, _ => none

/-- The value `bindTimings` produces on an all-raw dict. -/
def boundMap (t : Timings) (d : Date) : Timings :=
  t.map (fun e => (e.1, TimingVal.bound ⟨d, e.2.secD⟩))

/-- The append loop of lines 248-256: iterate the (already bound) timings
dict in order and keep the tracked prayers whose datetime is strictly
after `now`. -/
def buildUpcoming (t : Timings) (now : DateTime) : List (String × DateTime) :=
  t.filterMap (fun e =>
    match e.2 with
    | TimingVal.bound tm =>
        if isTracked e.1 && DateTime.ltb now tm then some (e.1, tm) else none
    | TimingVal.raw _ => none)

/-- The data produced by a successful run of
`get_main_layout_and_tomorrow_prayers`: the ISHA_PASSED flag, the entries
appended to UPCOMING_PRAYERS, and the month dictionary the function
returns (with the resolved day's timings mutated in place). -/
structure ResolveOk where
  ishaPassed : Bool
  upcoming : List (String × DateTime)
  monthData : MonthSchedule
deriving DecidableEq, Repr

inductive Outcome where
  | ok (r : ResolveOk) (st : St) (evs : List Ev)
  | exitCleared (st : St) (evs : List Ev)
  | crash (st : St) (evs : List Ev)
deriving DecidableEq, Repr

def Outcome.state : Outcome → St
  | Outcome.ok _ s _ => s
  | Outcome.exitCleared s _ => s
  | Outcome.crash s _ => s

def Outcome.events : Outcome → List Ev
  | Outcome.ok _ _ e => e
  | Outcome.exitCleared _ e => e
  | Outcome.crash _ e => e

def Outcome.upcoming? : Outcome → Option (List (String × DateTime))
  | Outcome.ok r _ _ => some r.upcoming
  | _ => none

def Outcome.ishaPassed? : Outcome → Option Bool
  | Outcome.ok r _ _ => some r.ishaPassed
  | _ => none

def Outcome.monthData? : Outcome → Option MonthSchedule
  | Outcome.ok r _ _ => some r.monthData
  | _ => none

/-- src/athany.py lines 190-268.  Resolution of the active day: look up
today's entry by day-of-month index, bind today's Isha to today's date and
compare with `now`.  If Isha has passed and today is the last day of the
month (`tomorrow.day < now.day`), fetch the new month through the cache —
on "RequestError" delete the saved city and country and `sys.exit()`, on
`None` crash on the `None["data"]` subscript — then read tomorrow's entry
and delete the superseded month's file.  Otherwise take the next day's
index of the same month.  Finally bind every timing of the chosen entry in
place to the chosen date and collect the tracked prayers after `now`. -/
def get_main_layout_and_tomorrow_prayers (net : CacheKey → NetResult)
    (st : St) (apiRes : MonthSchedule) (now : DateTime) : Outcome :=
  let tomorrow : Date := nextDate now.date
  match apiRes[now.date.day - 1]? with
  | none => Outcome.crash st []
  | some today =>
    match lookupTiming today.timings "Isha" with
    | none => Outcome.crash st []
    | some ishaVal =>
      match ishaVal.rawSec with
      | none => Outcome.crash st []
      | some ishaSec =>
        if DateTime.ltb ⟨now.date, ishaSec⟩ now then
          if (nextDate now.date).day < now.date.day then
            let city := st.city.getD ""
            let country := st.country.getD ""
            match fetch_calender_data net st city country tomorrow.year tomorrow.month with
            | (FetchResult.requestError, st1, evs1) =>
                Outcome.exitCleared { st1 with city := none, country := none } evs1
            | (FetchResult.noData, st1, evs1) => Outcome.crash st1 evs1
            | (FetchResult.parseError, st1, evs1) => Outcome.crash st1 evs1
            | (FetchResult.data m, st1, evs1) =>
              match m[tomorrow.day - 1]? with
              | none => Outcome.crash st1 evs1
              | some newDay =>
                let oldKey : CacheKey := ⟨now.date.year, now.date.month, city, country⟩
                let st2 : St := { st1 with disk := diskRemove st1.disk oldKey }
                let evs2 := evs1 ++ [Ev.fileDelete oldKey]
                match bindTimings newDay.timings tomorrow with
                | none => Outcome.crash st2 evs2
                | some bt =>
                  Outcome.ok ⟨true, buildUpcoming bt now, m.set (tomorrow.day - 1) ⟨bt⟩⟩ st2 evs2
          else
            match apiRes[now.date.day]? with
            | none => Outcome.crash st []
            | some nextDay =>
              match bindTimings nextDay.timings tomorrow with
              | none => Outcome.crash st []
              | some bt =>
                Outcome.ok ⟨true, buildUpcoming bt now, apiRes.set now.date.day ⟨bt⟩⟩ st []
        else
          match bindTimings today.timings now.date with
          | none => Outcome.crash st []
          | some bt =>
            Outcome.ok ⟨false, buildUpcoming bt now, apiRes.set (now.date.day - 1) ⟨bt⟩⟩ st []

/-- Lines 301-305 of the polling loop: read the queue front
(`UPCOMING_PRAYERS[0]`, an IndexError on an empty list) and pop it iff
`now >= front.timestamp`. -/
def popIfElapsed (now : DateTime) (q : List (String × DateTime)) :
    Except Unit (Option (String × DateTime) × List (String × DateTime)) :=
  match q with
  | [] => Except.error ()
  | f :: rest =>
    if DateTime.leb f.2 now then Except.ok (some f, rest) else Except.ok (none, f :: rest)

/-- The bare `UPCOMING_PRAYERS[0]` reads (lines 303, 329, 332-354): an
IndexError — the EmptyQueueFault of the design — on an empty queue. -/
def peekNext (q : List (String × DateTime)) : Except Unit (String × DateTime) :=
  match q with
  | [] => Except.error ()
  | f :: _ => Except.ok f

inductive TickResult where
  | cont (upcoming : List (String × DateTime)) (monthData : MonthSchedule) (st : St)
  | exited (st : St)
  | crashed (st : St)
deriving DecidableEq, Repr

def TickResult.upcoming? : TickResult → Option (List (String × DateTime))
  | TickResult.cont u _ _ => some u
  | _ => none

/-- One iteration of the polling loop of `display_main_window`
(lines 300-326), up to the point where `UPCOMING_PRAYERS[0]` is read again
for the countdown display: pop the front entry if elapsed, and when the
queue has just been emptied refill it by fetching the current month and
re-running the resolution. -/
def tick (net : CacheKey → NetResult) (upcoming : List (String × DateTime))
    (monthData : MonthSchedule) (st : St) (now : DateTime) : TickResult :=
  match upcoming with
  | [] => TickResult.crashed st
  | f :: rest =>
    if DateTime.leb f.2 now then
      if rest.isEmpty then
        match fetch_calender_data net st (st.city.getD "") (st.country.getD "")
            now.date.year now.date.month with
        | (FetchResult.data m, st1, _) =>
          match get_main_layout_and_tomorrow_prayers net st1 m now with
          | Outcome.ok r st2 _ => TickResult.cont r.upcoming r.monthData st2
          | Outcome.exitCleared st2 _ => TickResult.exited st2
          | Outcome.crash st2 _ => TickResult.crashed st2
        | (_, st1, _) => TickResult.crashed st1
      else TickResult.cont rest monthData st
    else TickResult.cont (f :: rest) monthData st

def isCacheGetEv : Ev → Bool
  | Ev.cacheGet _ => true
  | _ => false

def isNetCallEv : Ev → Bool
  | Ev.netCall _ => true
  | _ => false

def countCacheGet (evs : List Ev) : Nat := evs.countP isCacheGetEv

def countNet (evs : List Ev) : Nat := evs.countP isNetCallEv

/-- Consecutive entries ordered by timestamp (ascending). -/
def sortedAscB : List (String × DateTime) → Bool
  | [] => true
  | [_] => true
  | a :: b :: rest => DateTime.leb a.2 b.2 && sortedAscB (b :: rest)

/-- Consecutive timings listed in chronological (time-of-day) order. -/
def ascTimings : Timings → Bool
  | [] => true
  | [_] => true
  | a :: b :: rest => Nat.ble a.2.secD b.2.secD && ascTimings (b :: rest)

/-! ## Basic facts about the embedded orders and dates -/

theorem ltb_iff (a b : DateTime) : DateTime.ltb a b = true ↔ DateTime.Lt a b := by
  simp [DateTime.ltb]

theorem leb_iff (a b : DateTime) : DateTime.leb a b = true ↔ (DateTime.Lt a b ∨ a = b) := by
  simp [DateTime.leb]

theorem ltb_same_date (d : Date) (a b : Nat) :
    DateTime.ltb ⟨d, a⟩ ⟨d, b⟩ = true ↔ a < b := by
  simp [DateTime.ltb, DateTime.Lt]

theorem leb_same_date (d : Date) (a b : Nat) :
    DateTime.leb ⟨d, a⟩ ⟨d, b⟩ = true ↔ a ≤ b := by
  simp [DateTime.leb, DateTime.Lt, DateTime.mk.injEq]
  omega

theorem ltb_leb_false (a b : DateTime) (h : DateTime.ltb a b = true) :
    DateTime.leb b a = false := by
  rcases a with ⟨⟨ay, am, ad⟩, as⟩
  rcases b with ⟨⟨by2, bm, bd⟩, bs⟩
  simp [DateTime.ltb, DateTime.Lt] at h
  simp [DateTime.leb, DateTime.Lt, DateTime.mk.injEq, Date.mk.injEq]
  omega

theorem daysInMonth_ge (y m : Nat) : 28 ≤ daysInMonth y m := by
  unfold daysInMonth
  split_ifs <;> omega

/-- If tomorrow has the same month as today, today is not the last day and
tomorrow is just the next day-of-month. -/
theorem nextDate_same_month (d : Date) (h : (nextDate d).month = d.month) :
    nextDate d = ⟨d.year, d.month, d.day + 1⟩ := by
  unfold nextDate at *
  split_ifs at * with h1 h2
  · rfl
  · exfalso
    simp at h
  · exfalso
    simp at h
    omega

/-- On the last day of the month, `tomorrow.day < now.day` (the code's
month-boundary test) holds. -/
theorem nextDate_lastDay (d : Date) (h : d.day = daysInMonth d.year d.month) :
    (nextDate d).day < d.day := by
  have h28 := daysInMonth_ge d.year d.month
  unfold nextDate
  split_ifs with h1 h2 <;> simp <;> omega

/-- Any time tomorrow is strictly later than any time today. -/
theorem ltb_next (d : Date) (a b : Nat) :
    DateTime.ltb ⟨d, a⟩ ⟨nextDate d, b⟩ = true := by
  rw [ltb_iff]
  unfold nextDate DateTime.Lt
  split_ifs with h1 h2 <;> simp

/-! ## The binding loop and the upcoming-prayer list -/

theorem bindTimings_allRaw (t : Timings) (d : Date) (h : allRaw t = true) :
    bindTimings t d = some (boundMap t d) := by
  induction t with
  | nil => rfl
  | cons e rest ih =>
    rcases e with ⟨p, v⟩
    rcases v with s | tm
    · have hrest : allRaw rest = true := by
        simp [allRaw] at h ⊢
        intro x hx
        exact h.2 x hx
      unfold bindTimings
      rw [ih hrest]
      simp [TimingVal.rawSec, boundMap, TimingVal.secD]
    · exfalso
      simp [allRaw, TimingVal.isRaw] at h

theorem buildUpcoming_boundMap (t : Timings) (d : Date) (now : DateTime) :
    buildUpcoming (boundMap t d) now =
      (t.filter (fun e => isTracked e.1 && DateTime.ltb now ⟨d, e.2.secD⟩)).map
        (fun e => (e.1, (⟨d, e.2.secD⟩ : DateTime))) := by
  induction t with
  | nil => rfl
  | cons e rest ih =>
    rcases e with ⟨p, v⟩
    by_cases h1 : isTracked p = true ∧ DateTime.ltb now ⟨d, v.secD⟩ = true
    · simp [buildUpcoming, boundMap, List.filterMap_cons, List.filter_cons, h1] at ih ⊢
      exact ih
    · simp [buildUpcoming, boundMap, List.filterMap_cons, List.filter_cons, h1] at ih ⊢
      exact ih

/-- Soundness half of the upcoming list: every entry is a tracked prayer,
dated with the binding date, strictly after `now`. -/
theorem buildUpcoming_boundMap_mem (t : Timings) (d : Date) (now : DateTime)
    (e : String × DateTime) (he : e ∈ buildUpcoming (boundMap t d) now) :
    e.2.date = d ∧ DateTime.ltb now e.2 = true ∧ isTracked e.1 = true := by
  rw [buildUpcoming_boundMap] at he
  rcases List.mem_map.mp he with ⟨a, ha, rfl⟩
  rcases List.mem_filter.mp ha with ⟨_, hcond⟩
  rcases Bool.and_eq_true_iff.mp hcond with ⟨ht, hlt⟩
  exact ⟨rfl, hlt, ht⟩

/-- Completeness half: every tracked timing strictly after `now` shows up. -/
theorem buildUpcoming_boundMap_complete (t : Timings) (d : Date) (now : DateTime)
    (pv : String × TimingVal) (hmem : pv ∈ t) (ht : isTracked pv.1 = true)
    (hlt : DateTime.ltb now ⟨d, pv.2.secD⟩ = true) :
    (pv.1, (⟨d, pv.2.secD⟩ : DateTime)) ∈ buildUpcoming (boundMap t d) now := by
  rw [buildUpcoming_boundMap]
  apply List.mem_map.mpr
  refine ⟨pv, List.mem_filter.mpr ⟨hmem, ?_⟩, rfl⟩
  rw [ht, hlt]
  rfl

/-- When the binding date is strictly in the future (tomorrow), no entry is
filtered out: the upcoming list is exactly the tracked sublist. -/
theorem buildUpcoming_boundMap_next (t : Timings) (now : DateTime) :
    buildUpcoming (boundMap t (nextDate now.date)) now =
      (t.filter (fun e => isTracked e.1)).map
        (fun e => (e.1, (⟨nextDate now.date, e.2.secD⟩ : DateTime))) := by
  rw [buildUpcoming_boundMap]
  congr 1
  apply List.filter_congr
  intro a _
  rcases now with ⟨d, s⟩
  rw [ltb_next d s a.2.secD]
  rw [Bool.and_true]

/-! ## Sortedness -/

theorem sortedAscB_of_pairwise (l : List (String × DateTime))
    (h : l.Pairwise (fun a b => DateTime.leb a.2 b.2 = true)) :
    sortedAscB l = true := by
  induction l with
  | nil => rfl
  | cons a rest ih =>
    rcases rest with _ | ⟨b, rest2⟩
    · rfl
    · rcases List.pairwise_cons.mp h with ⟨hall, htail⟩
      have hab := hall b (by simp)
      simp [sortedAscB, hab]
      exact ih htail

theorem ascTimings_chain (t : Timings) (h : ascTimings t = true) :
    List.Chain' (fun a b : String × TimingVal => a.2.secD ≤ b.2.secD) t := by
  induction t with
  | nil => exact List.chain'_nil
  | cons a rest ih =>
    rcases rest with _ | ⟨b, rest2⟩
    · simp
    · simp only [ascTimings, Bool.and_eq_true] at h
      rcases h with ⟨hab, htail⟩
      refine List.Chain'.cons ?_ (ih htail)
      exact Nat.le_of_ble_eq_true hab

instance : IsTrans (String × TimingVal) (fun a b => a.2.secD ≤ b.2.secD) where
  trans := fun _ _ _ hab hbc => Nat.le_trans hab hbc

theorem ascTimings_pairwise (t : Timings) (h : ascTimings t = true) :
    t.Pairwise (fun a b => a.2.secD ≤ b.2.secD) :=
  List.chain'_iff_pairwise.mp (ascTimings_chain t h)

/-- Timings listed in chronological order yield a chronologically sorted
upcoming list (binding to one fixed date preserves the time order). -/
theorem buildUpcoming_sorted (t : Timings) (d : Date) (now : DateTime)
    (h : ascTimings t = true) :
    sortedAscB (buildUpcoming (boundMap t d) now) = true := by
  rw [buildUpcoming_boundMap]
  apply sortedAscB_of_pairwise
  apply List.pairwise_map.mpr
  have hp : (t.filter (fun e => isTracked e.1 && DateTime.ltb now ⟨d, e.2.secD⟩)).Pairwise
      (fun a b => a.2.secD ≤ b.2.secD) :=
    List.Pairwise.sublist (List.filter_sublist t) (ascTimings_pairwise t h)
  apply List.Pairwise.imp ?_ hp
  intro a b hab
  exact (leb_same_date d a.2.secD b.2.secD).mpr hab

/-! ## Unfolding the resolution function on its three paths -/

/-- Isha not yet passed: today's own timings are bound to today's date in
place; no settings change, no file or network activity. -/
theorem resolve_notPassed (net : CacheKey → NetResult) (st : St)
    (apiRes : MonthSchedule) (now : DateTime) (today : DaySchedule) (ishaSec : Nat)
    (h1 : apiRes[now.date.day - 1]? = some today)
    (h2 : lookupTiming today.timings "Isha" = some (TimingVal.raw ishaSec))
    (hpass : DateTime.ltb ⟨now.date, ishaSec⟩ now = false)
    (hraw : allRaw today.timings = true) :
    get_main_layout_and_tomorrow_prayers net st apiRes now =
      Outcome.ok ⟨false, buildUpcoming (boundMap today.timings now.date) now,
        apiRes.set (now.date.day - 1) ⟨boundMap today.timings now.date⟩⟩ st [] := by
  unfold get_main_layout_and_tomorrow_prayers
  simp [h1, h2, TimingVal.rawSec, hpass, bindTimings_allRaw today.timings now.date hraw]

/-- Isha passed, tomorrow still in the same month: the next day's index of
the same schedule is bound to tomorrow's date; no settings change, no file
or network activity. -/
theorem resolve_passed_sameMonth (net : CacheKey → NetResult) (st : St)
    (apiRes : MonthSchedule) (now : DateTime) (today nextDay : DaySchedule) (ishaSec : Nat)
    (h1 : apiRes[now.date.day - 1]? = some today)
    (h2 : lookupTiming today.timings "Isha" = some (TimingVal.raw ishaSec))
    (hpass : DateTime.ltb ⟨now.date, ishaSec⟩ now = true)
    (hsm : (nextDate now.date).month = now.date.month)
    (hnext : apiRes[now.date.day]? = some nextDay)
    (hraw : allRaw nextDay.timings = true) :
    get_main_layout_and_tomorrow_prayers net st apiRes now =
      Outcome.ok ⟨true, buildUpcoming (boundMap nextDay.timings (nextDate now.date)) now,
        apiRes.set now.date.day ⟨boundMap nextDay.timings (nextDate now.date)⟩⟩ st [] := by
  have hstep := nextDate_same_month now.date hsm
  have hnb : ¬ ((nextDate now.date).day < now.date.day) := by
    rw [hstep]
    simp
  unfold get_main_layout_and_tomorrow_prayers
  simp [h1, h2, TimingVal.rawSec, hpass, hnb, hnext,
    bindTimings_allRaw nextDay.timings (nextDate now.date) hraw]

/-- Isha passed on the last day of the month: the new month is fetched
through the cache (with the saved city and country, for tomorrow's year
and month) and the branch continues on the fetch result. -/
theorem resolve_boundary (net : CacheKey → NetResult) (st : St)
    (apiRes : MonthSchedule) (now : DateTime) (today : DaySchedule) (ishaSec : Nat)
    (c co : String)
    (h1 : apiRes[now.date.day - 1]? = some today)
    (h2 : lookupTiming today.timings "Isha" = some (TimingVal.raw ishaSec))
    (hpass : DateTime.ltb ⟨now.date, ishaSec⟩ now = true)
    (hb : (nextDate now.date).day < now.date.day)
    (hc : st.city = some c) (hco : st.country = some co) :
    get_main_layout_and_tomorrow_prayers net st apiRes now =
      (match fetch_calender_data net st c co (nextDate now.date).year (nextDate now.date).month with
       | (FetchResult.requestError, st1, evs1) =>
           Outcome.exitCleared ⟨st1.disk, none, none⟩ evs1
       | (FetchResult.noData, st1, evs1) => Outcome.crash st1 evs1
       | (FetchResult.parseError, st1, evs1) => Outcome.crash st1 evs1
       | (FetchResult.data m, st1, evs1) =>
         match m[(nextDate now.date).day - 1]? with
         | none => Outcome.crash st1 evs1
         | some newDay =>
           match bindTimings newDay.timings (nextDate now.date) with
           | none => Outcome.crash
               ⟨diskRemove st1.disk ⟨now.date.year, now.date.month, c, co⟩, st1.city, st1.country⟩
               (evs1 ++ [Ev.fileDelete ⟨now.date.year, now.date.month, c, co⟩])
           | some bt =>
             Outcome.ok ⟨true, buildUpcoming bt now, m.set ((nextDate now.date).day - 1) ⟨bt⟩⟩
               ⟨diskRemove st1.disk ⟨now.date.year, now.date.month, c, co⟩, st1.city, st1.country⟩
               (evs1 ++ [Ev.fileDelete ⟨now.date.year, now.date.month, c, co⟩])) := by
  unfold get_main_layout_and_tomorrow_prayers
  simp [h1, h2, TimingVal.rawSec, hpass, hb, hc, hco]

/-! ## Behaviour of the cache layer -/

theorem fetch_hit_good (net : CacheKey → NetResult) (st : St)
    (cit count : String) (year month : Nat) (m : MonthSchedule)
    (h : diskGet st.disk ⟨year, month, cit, count⟩ = some (FileContent.good m)) :
    fetch_calender_data net st cit count year month =
      (FetchResult.data m, st, [Ev.cacheGet ⟨year, month, cit, count⟩]) := by
  unfold fetch_calender_data
  simp [h]

theorem fetch_hit_malformed (net : CacheKey → NetResult) (st : St)
    (cit count : String) (year month : Nat)
    (h : diskGet st.disk ⟨year, month, cit, count⟩ = some FileContent.malformed) :
    fetch_calender_data net st cit count year month =
      (FetchResult.parseError, st, [Ev.cacheGet ⟨year, month, cit, count⟩]) := by
  unfold fetch_calender_data
  simp [h]

theorem fetch_miss_netError (net : CacheKey → NetResult) (st : St)
    (cit count : String) (year month : Nat)
    (h : diskGet st.disk ⟨year, month, cit, count⟩ = none)
    (hn : net ⟨year, month, cit, count⟩ = NetResult.netError) :
    fetch_calender_data net st cit count year month =
      (FetchResult.requestError, st,
       [Ev.cacheGet ⟨year, month, cit, count⟩, Ev.netCall ⟨year, month, cit, count⟩]) := by
  unfold fetch_calender_data
  simp [h, hn]

theorem fetch_miss_notOk (net : CacheKey → NetResult) (st : St)
    (cit count : String) (year month : Nat)
    (h : diskGet st.disk ⟨year, month, cit, count⟩ = none)
    (hn : net ⟨year, month, cit, count⟩ = NetResult.notOk) :
    fetch_calender_data net st cit count year month =
      (FetchResult.noData, st,
       [Ev.cacheGet ⟨year, month, cit, count⟩, Ev.netCall ⟨year, month, cit, count⟩]) := by
  unfold fetch_calender_data
  simp [h, hn]

theorem fetch_miss_ok (net : CacheKey → NetResult) (st : St)
    (cit count : String) (year month : Nat) (m : MonthSchedule)
    (h : diskGet st.disk ⟨year, month, cit, count⟩ = none)
    (hn : net ⟨year, month, cit, count⟩ = NetResult.ok m) :
    fetch_calender_data net st cit count year month =
      (FetchResult.data m,
       ⟨st.disk ++ [(⟨year, month, cit, count⟩, FileContent.good m)], st.city, st.country⟩,
       [Ev.cacheGet ⟨year, month, cit, count⟩, Ev.netCall ⟨year, month, cit, count⟩,
        Ev.fileWrite ⟨year, month, cit, count⟩]) := by
  unfold fetch_calender_data
  simp [h, hn]

theorem diskGet_append_right (l1 l2 : List (CacheKey × FileContent)) (k : CacheKey)
    (h : diskGet l1 k = none) : diskGet (l1 ++ l2) k = diskGet l2 k := by
  induction l1 with
  | nil => rfl
  | cons e rest ih =>
    by_cases he : (e.1 == k) = true
    · exfalso
      simp [diskGet, he] at h
    · simp [diskGet, he] at h ⊢
      exact ih h

/-- The event trace of any single cache access: exactly one cache lookup,
for the requested key, at most one network call, and never a deletion. -/
theorem fetch_events_shape (net : CacheKey → NetResult) (st : St)
    (cit count : String) (year month : Nat) :
    countCacheGet (fetch_calender_data net st cit count year month).2.2 = 1 ∧
    countNet (fetch_calender_data net st cit count year month).2.2 ≤ 1 ∧
    Ev.cacheGet ⟨year, month, cit, count⟩ ∈ (fetch_calender_data net st cit count year month).2.2 ∧
    (∀ e ∈ (fetch_calender_data net st cit count year month).2.2,
      ∃ k2, (e = Ev.cacheGet k2 ∨ e = Ev.netCall k2 ∨ e = Ev.fileWrite k2) ∧
        k2 = ⟨year, month, cit, count⟩) := by
  unfold fetch_calender_data
  rcases hd : diskGet st.disk ⟨year, month, cit, count⟩ with _ | fc
  · rcases hn : net ⟨year, month, cit, count⟩ with _ | _ | m <;>
      simp [hd, hn, countCacheGet, countNet, isCacheGetEv, isNetCallEv]
  · rcases fc with m | _ <;>
      simp [hd, countCacheGet, countNet, isCacheGetEv, isNetCallEv]

/-! ## Claim C5: popIfElapsed -/

/-- C5: on a non-empty queue, `popIfElapsed(now)` returns nothing and
leaves the queue unchanged when `now` is strictly before the front entry's
timestamp, and removes and returns exactly the front entry when `now` is
at or after it. -/
theorem C5_popIfElapsed (now : DateTime) (f : String × DateTime)
    (rest : List (String × DateTime)) :
    (DateTime.ltb now f.2 = true →
       popIfElapsed now (f :: rest) = Except.ok (none, f :: rest)) ∧
    (DateTime.leb f.2 now = true →
       popIfElapsed now (f :: rest) = Except.ok (some f, rest)) := by
  constructor
  · intro h
    have hle : DateTime.leb f.2 now = false := ltb_leb_false now f.2 h
    simp [popIfElapsed, hle]
  · intro h
    simp [popIfElapsed, h]

/-- C5 witness, the spec's scenario: queue `[(Fajr, T1), (Dhuhr, T2)]` at
`now = T1` pops Fajr and leaves `[(Dhuhr, T2)]`; strictly before T1
nothing is popped. -/
theorem C5_popIfElapsed_witness :
    DateTime.leb ⟨⟨2024, 3, 1⟩, 18000⟩ ⟨⟨2024, 3, 1⟩, 18000⟩ = true ∧
    popIfElapsed ⟨⟨2024, 3, 1⟩, 18000⟩
        [("Fajr", ⟨⟨2024, 3, 1⟩, 18000⟩), ("Dhuhr", ⟨⟨2024, 3, 1⟩, 43200⟩)] =
      Except.ok (some ("Fajr", ⟨⟨2024, 3, 1⟩, 18000⟩), [("Dhuhr", ⟨⟨2024, 3, 1⟩, 43200⟩)]) ∧
    DateTime.ltb ⟨⟨2024, 3, 1⟩, 17000⟩ ⟨⟨2024, 3, 1⟩, 18000⟩ = true ∧
    popIfElapsed ⟨⟨2024, 3, 1⟩, 17000⟩
        [("Fajr", ⟨⟨2024, 3, 1⟩, 18000⟩), ("Dhuhr", ⟨⟨2024, 3, 1⟩, 43200⟩)] =
      Except.ok (none, [("Fajr", ⟨⟨2024, 3, 1⟩, 18000⟩), ("Dhuhr", ⟨⟨2024, 3, 1⟩, 43200⟩)]) :=
  ⟨by decide,
   (C5_popIfElapsed ⟨⟨2024, 3, 1⟩, 18000⟩ ("Fajr", ⟨⟨2024, 3, 1⟩, 18000⟩)
      [("Dhuhr", ⟨⟨2024, 3, 1⟩, 43200⟩)]).2 (by decide),
   by decide,
   (C5_popIfElapsed ⟨⟨2024, 3, 1⟩, 17000⟩ ("Fajr", ⟨⟨2024, 3, 1⟩, 18000⟩)
      [("Dhuhr", ⟨⟨2024, 3, 1⟩, 43200⟩)]).1 (by decide)⟩

/-! ## Claim C6: peekNext on the empty queue -/

/-- C6: reading the next prayer from an empty queue is an error (the
IndexError of `UPCOMING_PRAYERS[0]`, the design's EmptyQueueFault); it is
never a silently returned value. -/
theorem C6_peekNext_empty :
    peekNext ([] : List (String × DateTime)) = Except.error () := by
  rfl

/-! ## Claim C7: cache idempotence -/

/-- C7: on a cache miss with a healthy network, the first `get` performs
exactly one network fetch and persists the response; a second `get` with
the same key is a pure cache hit — same data, unchanged state, no network
call. -/
theorem C7_cache_idempotent (net : CacheKey → NetResult) (st : St)
    (cit count : String) (year month : Nat) (m : MonthSchedule)
    (hmiss : diskGet st.disk ⟨year, month, cit, count⟩ = none)
    (hok : net ⟨year, month, cit, count⟩ = NetResult.ok m) :
    (fetch_calender_data net st cit count year month).1 = FetchResult.data m ∧
    countNet (fetch_calender_data net st cit count year month).2.2 = 1 ∧
    diskGet (fetch_calender_data net st cit count year month).2.1.disk
        ⟨year, month, cit, count⟩ = some (FileContent.good m) ∧
    fetch_calender_data net (fetch_calender_data net st cit count year month).2.1
        cit count year month =
      (FetchResult.data m, (fetch_calender_data net st cit count year month).2.1,
       [Ev.cacheGet ⟨year, month, cit, count⟩]) ∧
    countNet [Ev.cacheGet ⟨year, month, cit, count⟩] = 0 := by
  have hf := fetch_miss_ok net st cit count year month m hmiss hok
  have hdisk : diskGet (st.disk ++ [(⟨year, month, cit, count⟩, FileContent.good m)])
      ⟨year, month, cit, count⟩ = some (FileContent.good m) := by
    rw [diskGet_append_right st.disk _ _ hmiss]
    simp [diskGet]
  refine ⟨?_, ?_, ?_, ?_, ?_⟩
  · simp [hf]
  · simp [hf, countNet, isNetCallEv]
  · simp only [hf]
    exact hdisk
  · simp only [hf]
    exact fetch_hit_good net _ cit count year month m hdisk
  · simp [countNet, isNetCallEv]

/-- C7 witness: the spec's scenario, a miss for (2024, 3, Cairo, Egypt)
followed by a hit on the same key. -/
theorem C7_cache_idempotent_witness :
    diskGet (St.disk ⟨[], some "Cairo", some "Egypt"⟩) ⟨2024, 3, "Cairo", "Egypt"⟩ = none ∧
    ((fetch_calender_data (fun _ => NetResult.ok [⟨[("Fajr", TimingVal.raw 18000)]⟩])
        ⟨[], some "Cairo", some "Egypt"⟩ "Cairo" "Egypt" 2024 3).1 =
      FetchResult.data [⟨[("Fajr", TimingVal.raw 18000)]⟩] ∧
     countNet (fetch_calender_data (fun _ => NetResult.ok [⟨[("Fajr", TimingVal.raw 18000)]⟩])
        ⟨[], some "Cairo", some "Egypt"⟩ "Cairo" "Egypt" 2024 3).2.2 = 1 ∧
     diskGet (fetch_calender_data (fun _ => NetResult.ok [⟨[("Fajr", TimingVal.raw 18000)]⟩])
        ⟨[], some "Cairo", some "Egypt"⟩ "Cairo" "Egypt" 2024 3).2.1.disk
        ⟨2024, 3, "Cairo", "Egypt"⟩ = some (FileContent.good [⟨[("Fajr", TimingVal.raw 18000)]⟩]) ∧
     fetch_calender_data (fun _ => NetResult.ok [⟨[("Fajr", TimingVal.raw 18000)]⟩])
        (fetch_calender_data (fun _ => NetResult.ok [⟨[("Fajr", TimingVal.raw 18000)]⟩])
          ⟨[], some "Cairo", some "Egypt"⟩ "Cairo" "Egypt" 2024 3).2.1
        "Cairo" "Egypt" 2024 3 =
      (FetchResult.data [⟨[("Fajr", TimingVal.raw 18000)]⟩],
       (fetch_calender_data (fun _ => NetResult.ok [⟨[("Fajr", TimingVal.raw 18000)]⟩])
          ⟨[], some "Cairo", some "Egypt"⟩ "Cairo" "Egypt" 2024 3).2.1,
       [Ev.cacheGet ⟨2024, 3, "Cairo", "Egypt"⟩]) ∧
     countNet [Ev.cacheGet ⟨2024, 3, "Cairo", "Egypt"⟩] = 0) :=
  ⟨by decide,
   C7_cache_idempotent (fun _ => NetResult.ok [⟨[("Fajr", TimingVal.raw 18000)]⟩])
     ⟨[], some "Cairo", some "Egypt"⟩ "Cairo" "Egypt" 2024 3
     [⟨[("Fajr", TimingVal.raw 18000)]⟩] (by decide) (by decide)⟩

/-! ## Claim C9: corrupt cached file -/

/-- C9 counterexample: with a malformed cached file for the key and a
healthy network (which would return fresh data), `get` does NOT treat the
corruption as a cache miss: it performs zero network calls and fails with
the propagated json-decode error instead of returning data. -/
theorem C9_corrupt_cex :
    diskGet (St.disk ⟨[(⟨2024, 3, "Cairo", "Egypt"⟩, FileContent.malformed)],
        some "Cairo", some "Egypt"⟩) ⟨2024, 3, "Cairo", "Egypt"⟩ =
      some FileContent.malformed ∧
    (fetch_calender_data (fun _ => NetResult.ok [⟨[("Fajr", TimingVal.raw 18000)]⟩])
        ⟨[(⟨2024, 3, "Cairo", "Egypt"⟩, FileContent.malformed)], some "Cairo", some "Egypt"⟩
        "Cairo" "Egypt" 2024 3).1 = FetchResult.parseError ∧
    countNet (fetch_calender_data (fun _ => NetResult.ok [⟨[("Fajr", TimingVal.raw 18000)]⟩])
        ⟨[(⟨2024, 3, "Cairo", "Egypt"⟩, FileContent.malformed)], some "Cairo", some "Egypt"⟩
        "Cairo" "Egypt" 2024 3).2.2 = 0 := by
  decide

/-- C9 (amended): for a key whose cached file exists but is malformed,
`get` raises the json-decode error (no re-fetch happens, no state
changes, the corrupt file stays in place). -/
theorem C9_corrupt_parseError (net : CacheKey → NetResult) (st : St)
    (cit count : String) (year month : Nat)
    (h : diskGet st.disk ⟨year, month, cit, count⟩ = some FileContent.malformed) :
    fetch_calender_data net st cit count year month =
      (FetchResult.parseError, st, [Ev.cacheGet ⟨year, month, cit, count⟩]) ∧
    countNet (fetch_calender_data net st cit count year month).2.2 = 0 := by
  have hf := fetch_hit_malformed net st cit count year month h
  refine ⟨hf, ?_⟩
  simp [hf, countNet, isNetCallEv]

/-- C9 witness for the amended statement. -/
theorem C9_corrupt_parseError_witness :
    diskGet (St.disk ⟨[(⟨2024, 3, "Oslo", "Norway"⟩, FileContent.malformed)],
        some "Oslo", some "Norway"⟩) ⟨2024, 3, "Oslo", "Norway"⟩ =
      some FileContent.malformed ∧
    (fetch_calender_data (fun _ => NetResult.netError)
        ⟨[(⟨2024, 3, "Oslo", "Norway"⟩, FileContent.malformed)], some "Oslo", some "Norway"⟩
        "Oslo" "Norway" 2024 3 =
      (FetchResult.parseError,
       ⟨[(⟨2024, 3, "Oslo", "Norway"⟩, FileContent.malformed)], some "Oslo", some "Norway"⟩,
       [Ev.cacheGet ⟨2024, 3, "Oslo", "Norway"⟩]) ∧
     countNet (fetch_calender_data (fun _ => NetResult.netError)
        ⟨[(⟨2024, 3, "Oslo", "Norway"⟩, FileContent.malformed)], some "Oslo", some "Norway"⟩
        "Oslo" "Norway" 2024 3).2.2 = 0) :=
  ⟨by decide,
   C9_corrupt_parseError (fun _ => NetResult.netError)
     ⟨[(⟨2024, 3, "Oslo", "Norway"⟩, FileContent.malformed)], some "Oslo", some "Norway"⟩
     "Oslo" "Norway" 2024 3 (by decide)⟩

/-! ## Claim C1: resolution before Isha -/

/-- C1 counterexample: the code never sorts — the upcoming list inherits
the dict insertion order of the schedule.  A day whose timings dict lists
Dhuhr before Fajr (all other C1 premises hold: now is before Isha, every
entry is dated today and is strictly after now) yields an unsorted
result. -/
theorem C1_resolve_sorted_cex :
    DateTime.ltb ⟨⟨2024, 3, 1⟩, 72000⟩ ⟨⟨2024, 3, 1⟩, 0⟩ = false ∧
    Outcome.ishaPassed? (get_main_layout_and_tomorrow_prayers (fun _ => NetResult.netError)
        ⟨[], some "X", some "Y"⟩
        [⟨[("Dhuhr", TimingVal.raw 43200), ("Fajr", TimingVal.raw 18000),
           ("Isha", TimingVal.raw 72000)]⟩]
        ⟨⟨2024, 3, 1⟩, 0⟩) = some false ∧
    (Outcome.upcoming? (get_main_layout_and_tomorrow_prayers (fun _ => NetResult.netError)
        ⟨[], some "X", some "Y"⟩
        [⟨[("Dhuhr", TimingVal.raw 43200), ("Fajr", TimingVal.raw 18000),
           ("Isha", TimingVal.raw 72000)]⟩]
        ⟨⟨2024, 3, 1⟩, 0⟩)).map sortedAscB = some false := by
  decide

/-- C1 (amended): for a schedule whose day entry lists its timings in
chronological order — as real calendar responses do — and `now` not after
today's Isha, resolution reports Isha as not passed and the appended
upcoming list consists exactly of the tracked prayers (five canonical plus
Sunrise) of today's entry whose timestamp, bound to today's date, is
strictly greater than `now`; the list is sorted ascending by timestamp.
Without the chronological-order assumption the output keeps the
schedule's listing order and need not be sorted. -/
theorem C1_resolveToday_beforeIsha (net : CacheKey → NetResult) (st : St)
    (apiRes : MonthSchedule) (now : DateTime) (today : DaySchedule) (ishaSec : Nat)
    (h1 : apiRes[now.date.day - 1]? = some today)
    (h2 : lookupTiming today.timings "Isha" = some (TimingVal.raw ishaSec))
    (hpass : DateTime.ltb ⟨now.date, ishaSec⟩ now = false)
    (hraw : allRaw today.timings = true)
    (hsorted : ascTimings today.timings = true) :
    Outcome.ishaPassed? (get_main_layout_and_tomorrow_prayers net st apiRes now) = some false ∧
    ∃ up, Outcome.upcoming? (get_main_layout_and_tomorrow_prayers net st apiRes now) = some up ∧
      (∀ e ∈ up, e.2.date = now.date ∧ DateTime.ltb now e.2 = true ∧ isTracked e.1 = true) ∧
      (∀ pv ∈ today.timings, isTracked pv.1 = true →
        DateTime.ltb now ⟨now.date, pv.2.secD⟩ = true →
        (pv.1, (⟨now.date, pv.2.secD⟩ : DateTime)) ∈ up) ∧
      sortedAscB up = true := by
  have hr := resolve_notPassed net st apiRes now today ishaSec h1 h2 hpass hraw
  refine ⟨by simp [hr, Outcome.ishaPassed?],
    buildUpcoming (boundMap today.timings now.date) now,
    by simp [hr, Outcome.upcoming?], ?_, ?_, ?_⟩
  · intro e he
    exact buildUpcoming_boundMap_mem today.timings now.date now e he
  · intro pv hm ht hlt
    exact buildUpcoming_boundMap_complete today.timings now.date now pv hm ht hlt
  · exact buildUpcoming_sorted today.timings now.date now hsorted

/-- C1 witness: a chronologically ordered day, started mid-morning. -/
theorem C1_resolveToday_beforeIsha_witness :
    ([⟨[("Fajr", TimingVal.raw 18000), ("Sunrise", TimingVal.raw 22000),
        ("Dhuhr", TimingVal.raw 43200), ("Asr", TimingVal.raw 56000),
        ("Maghrib", TimingVal.raw 65000), ("Isha", TimingVal.raw 72000)]⟩] :
      MonthSchedule)[(⟨⟨2024, 3, 1⟩, 30000⟩ : DateTime).date.day - 1]? =
      some ⟨[("Fajr", TimingVal.raw 18000), ("Sunrise", TimingVal.raw 22000),
        ("Dhuhr", TimingVal.raw 43200), ("Asr", TimingVal.raw 56000),
        ("Maghrib", TimingVal.raw 65000), ("Isha", TimingVal.raw 72000)]⟩ ∧
    DateTime.ltb ⟨⟨2024, 3, 1⟩, 72000⟩ ⟨⟨2024, 3, 1⟩, 30000⟩ = false ∧
    (Outcome.ishaPassed? (get_main_layout_and_tomorrow_prayers (fun _ => NetResult.netError)
        ⟨[], some "X", some "Y"⟩
        [⟨[("Fajr", TimingVal.raw 18000), ("Sunrise", TimingVal.raw 22000),
           ("Dhuhr", TimingVal.raw 43200), ("Asr", TimingVal.raw 56000),
           ("Maghrib", TimingVal.raw 65000), ("Isha", TimingVal.raw 72000)]⟩]
        ⟨⟨2024, 3, 1⟩, 30000⟩) = some false ∧
     ∃ up, Outcome.upcoming? (get_main_layout_and_tomorrow_prayers (fun _ => NetResult.netError)
        ⟨[], some "X", some "Y"⟩
        [⟨[("Fajr", TimingVal.raw 18000), ("Sunrise", TimingVal.raw 22000),
           ("Dhuhr", TimingVal.raw 43200), ("Asr", TimingVal.raw 56000),
           ("Maghrib", TimingVal.raw 65000), ("Isha", TimingVal.raw 72000)]⟩]
        ⟨⟨2024, 3, 1⟩, 30000⟩) = some up ∧
      (∀ e ∈ up, e.2.date = (⟨⟨2024, 3, 1⟩, 30000⟩ : DateTime).date ∧
        DateTime.ltb ⟨⟨2024, 3, 1⟩, 30000⟩ e.2 = true ∧ isTracked e.1 = true) ∧
      (∀ pv ∈ ([("Fajr", TimingVal.raw 18000), ("Sunrise", TimingVal.raw 22000),
          ("Dhuhr", TimingVal.raw 43200), ("Asr", TimingVal.raw 56000),
          ("Maghrib", TimingVal.raw 65000), ("Isha", TimingVal.raw 72000)] : Timings),
        isTracked pv.1 = true →
        DateTime.ltb ⟨⟨2024, 3, 1⟩, 30000⟩ ⟨(⟨⟨2024, 3, 1⟩, 30000⟩ : DateTime).date, pv.2.secD⟩ = true →
        (pv.1, (⟨(⟨⟨2024, 3, 1⟩, 30000⟩ : DateTime).date, pv.2.secD⟩ : DateTime)) ∈ up) ∧
      sortedAscB up = true) :=
  ⟨by decide, by decide,
   C1_resolveToday_beforeIsha (fun _ => NetResult.netError) ⟨[], some "X", some "Y"⟩
     [⟨[("Fajr", TimingVal.raw 18000), ("Sunrise", TimingVal.raw 22000),
        ("Dhuhr", TimingVal.raw 43200), ("Asr", TimingVal.raw 56000),
        ("Maghrib", TimingVal.raw 65000), ("Isha", TimingVal.raw 72000)]⟩]
     ⟨⟨2024, 3, 1⟩, 30000⟩
     ⟨[("Fajr", TimingVal.raw 18000), ("Sunrise", TimingVal.raw 22000),
       ("Dhuhr", TimingVal.raw 43200), ("Asr", TimingVal.raw 56000),
       ("Maghrib", TimingVal.raw 65000), ("Isha", TimingVal.raw 72000)]⟩
     72000 (by decide) (by decide) (by decide) (by decide) (by decide)⟩

/-! ## Claim C2: rollover within the same month -/

/-- C2: when `now` is strictly after today's Isha and tomorrow has the
same month, resolution reports Isha as passed, performs no cache, network
or file activity (empty event trace, unchanged state), takes the timings
from the next day's index of the same schedule, and every appended entry
— the tracked prayers of that entry, none filtered out — is bound to
tomorrow's date, strictly after `now`. -/
theorem C2_rollover_sameMonth (net : CacheKey → NetResult) (st : St)
    (apiRes : MonthSchedule) (now : DateTime) (today nextDay : DaySchedule) (ishaSec : Nat)
    (h1 : apiRes[now.date.day - 1]? = some today)
    (h2 : lookupTiming today.timings "Isha" = some (TimingVal.raw ishaSec))
    (hpass : DateTime.ltb ⟨now.date, ishaSec⟩ now = true)
    (hsm : (nextDate now.date).month = now.date.month)
    (hnext : apiRes[now.date.day]? = some nextDay)
    (hraw : allRaw nextDay.timings = true) :
    get_main_layout_and_tomorrow_prayers net st apiRes now =
      Outcome.ok ⟨true,
        (nextDay.timings.filter (fun e => isTracked e.1)).map
          (fun e => (e.1, (⟨nextDate now.date, e.2.secD⟩ : DateTime))),
        apiRes.set now.date.day ⟨boundMap nextDay.timings (nextDate now.date)⟩⟩ st [] ∧
    (∀ e ∈ (nextDay.timings.filter (fun e => isTracked e.1)).map
        (fun e => (e.1, (⟨nextDate now.date, e.2.secD⟩ : DateTime))),
      e.2.date = nextDate now.date ∧ DateTime.ltb now e.2 = true) := by
  have hr := resolve_passed_sameMonth net st apiRes now today nextDay ishaSec
    h1 h2 hpass hsm hnext hraw
  rw [buildUpcoming_boundMap_next nextDay.timings now] at hr
  refine ⟨hr, ?_⟩
  intro e he
  rcases List.mem_map.mp he with ⟨a, _, rfl⟩
  refine ⟨rfl, ?_⟩
  rcases now with ⟨d, s⟩
  simpa using ltb_next d s a.2.secD

/-- C2 witness, the spec's scenario: Isha at 20:00, now 20:01 on day 1;
every returned timestamp is dated day 2 of the same month. -/
theorem C2_rollover_sameMonth_witness :
    DateTime.ltb ⟨⟨2024, 3, 1⟩, 72000⟩ ⟨⟨2024, 3, 1⟩, 72060⟩ = true ∧
    (nextDate ⟨2024, 3, 1⟩).month = (⟨2024, 3, 1⟩ : Date).month ∧
    (get_main_layout_and_tomorrow_prayers (fun _ => NetResult.netError)
        ⟨[], some "Cairo", some "Egypt"⟩
        [⟨[("Isha", TimingVal.raw 72000)]⟩,
         ⟨[("Fajr", TimingVal.raw 18000), ("Isha", TimingVal.raw 72900)]⟩]
        ⟨⟨2024, 3, 1⟩, 72060⟩ =
      Outcome.ok ⟨true,
        (([("Fajr", TimingVal.raw 18000), ("Isha", TimingVal.raw 72900)] :
            Timings).filter (fun e => isTracked e.1)).map
          (fun e => (e.1, (⟨nextDate (⟨⟨2024, 3, 1⟩, 72060⟩ : DateTime).date, e.2.secD⟩ : DateTime))),
        ([⟨[("Isha", TimingVal.raw 72000)]⟩,
          ⟨[("Fajr", TimingVal.raw 18000), ("Isha", TimingVal.raw 72900)]⟩] :
            MonthSchedule).set (⟨⟨2024, 3, 1⟩, 72060⟩ : DateTime).date.day
          ⟨boundMap [("Fajr", TimingVal.raw 18000), ("Isha", TimingVal.raw 72900)]
            (nextDate (⟨⟨2024, 3, 1⟩, 72060⟩ : DateTime).date)⟩⟩
        ⟨[], some "Cairo", some "Egypt"⟩ [] ∧
     ∀ e ∈ (([("Fajr", TimingVal.raw 18000), ("Isha", TimingVal.raw 72900)] :
          Timings).filter (fun e => isTracked e.1)).map
        (fun e => (e.1, (⟨nextDate (⟨⟨2024, 3, 1⟩, 72060⟩ : DateTime).date, e.2.secD⟩ : DateTime))),
      e.2.date = nextDate (⟨⟨2024, 3, 1⟩, 72060⟩ : DateTime).date ∧
        DateTime.ltb ⟨⟨2024, 3, 1⟩, 72060⟩ e.2 = true) :=
  ⟨by decide, by decide,
   C2_rollover_sameMonth (fun _ => NetResult.netError) ⟨[], some "Cairo", some "Egypt"⟩
     [⟨[("Isha", TimingVal.raw 72000)]⟩,
      ⟨[("Fajr", TimingVal.raw 18000), ("Isha", TimingVal.raw 72900)]⟩]
     ⟨⟨2024, 3, 1⟩, 72060⟩
     ⟨[("Isha", TimingVal.raw 72000)]⟩
     ⟨[("Fajr", TimingVal.raw 18000), ("Isha", TimingVal.raw 72900)]⟩
     72000 (by decide) (by decide) (by decide) (by decide) (by decide) (by decide)⟩

/-! ## Claim C10: schedule immutability -/

/-- C10 counterexample: resolving a day's prayers mutates the in-memory
month schedule — the loop at lines 226-231 overwrites the resolved day's
timings values in place (raw time strings become bound datetimes), so the
returned month data differs from the schedule that was passed in. -/
theorem C10_mutation_cex :
    Outcome.monthData? (get_main_layout_and_tomorrow_prayers (fun _ => NetResult.netError)
        ⟨[], some "X", some "Y"⟩
        [⟨[("Fajr", TimingVal.raw 18000), ("Isha", TimingVal.raw 72000)]⟩]
        ⟨⟨2024, 3, 1⟩, 0⟩) ≠
      some [⟨[("Fajr", TimingVal.raw 18000), ("Isha", TimingVal.raw 72000)]⟩] ∧
    Outcome.monthData? (get_main_layout_and_tomorrow_prayers (fun _ => NetResult.netError)
        ⟨[], some "X", some "Y"⟩
        [⟨[("Fajr", TimingVal.raw 18000), ("Isha", TimingVal.raw 72000)]⟩]
        ⟨⟨2024, 3, 1⟩, 0⟩) =
      some [⟨[("Fajr", TimingVal.bound ⟨⟨2024, 3, 1⟩, 18000⟩),
              ("Isha", TimingVal.bound ⟨⟨2024, 3, 1⟩, 72000⟩)]⟩] := by
  decide

/-- C10 (amended): the on-disk cached month file is never touched by a
non-rollover resolution — the state is unchanged and the event trace is
empty, so files are only replaced or deleted at month rollover — but the
in-memory month schedule IS mutated: the resolved day's timings values
are overwritten in place with date-bound datetimes, while every other
day's entry is left unchanged. -/
theorem C10_resolve_frame (net : CacheKey → NetResult) (st : St)
    (apiRes : MonthSchedule) (now : DateTime) (today : DaySchedule) (ishaSec : Nat)
    (h1 : apiRes[now.date.day - 1]? = some today)
    (h2 : lookupTiming today.timings "Isha" = some (TimingVal.raw ishaSec))
    (hpass : DateTime.ltb ⟨now.date, ishaSec⟩ now = false)
    (hraw : allRaw today.timings = true) :
    Outcome.state (get_main_layout_and_tomorrow_prayers net st apiRes now) = st ∧
    Outcome.events (get_main_layout_and_tomorrow_prayers net st apiRes now) = [] ∧
    Outcome.monthData? (get_main_layout_and_tomorrow_prayers net st apiRes now) =
      some (apiRes.set (now.date.day - 1) ⟨boundMap today.timings now.date⟩) ∧
    (∀ j, j ≠ now.date.day - 1 →
      (apiRes.set (now.date.day - 1) ⟨boundMap today.timings now.date⟩)[j]? = apiRes[j]?) := by
  have hr := resolve_notPassed net st apiRes now today ishaSec h1 h2 hpass hraw
  refine ⟨by simp [hr, Outcome.state], by simp [hr, Outcome.events],
    by simp [hr, Outcome.monthData?], ?_⟩
  intro j hj
  exact List.getElem?_set_ne (fun h => hj h.symm)

/-- C10 witness for the amended statement: a two-day schedule resolved on
day 1 — state and trace untouched, day 2's entry untouched, day 1's
timings rebound in place. -/
theorem C10_resolve_frame_witness :
    ([⟨[("Isha", TimingVal.raw 72000)]⟩, ⟨[("Fajr", TimingVal.raw 18000)]⟩] :
        MonthSchedule)[(⟨⟨2024, 3, 1⟩, 100⟩ : DateTime).date.day - 1]? =
      some ⟨[("Isha", TimingVal.raw 72000)]⟩ ∧
    (Outcome.state (get_main_layout_and_tomorrow_prayers (fun _ => NetResult.netError)
        ⟨[(⟨2024, 3, "Cairo", "Egypt"⟩, FileContent.malformed)], some "Cairo", some "Egypt"⟩
        [⟨[("Isha", TimingVal.raw 72000)]⟩, ⟨[("Fajr", TimingVal.raw 18000)]⟩]
        ⟨⟨2024, 3, 1⟩, 100⟩) =
      ⟨[(⟨2024, 3, "Cairo", "Egypt"⟩, FileContent.malformed)], some "Cairo", some "Egypt"⟩ ∧
     Outcome.events (get_main_layout_and_tomorrow_prayers (fun _ => NetResult.netError)
        ⟨[(⟨2024, 3, "Cairo", "Egypt"⟩, FileContent.malformed)], some "Cairo", some "Egypt"⟩
        [⟨[("Isha", TimingVal.raw 72000)]⟩, ⟨[("Fajr", TimingVal.raw 18000)]⟩]
        ⟨⟨2024, 3, 1⟩, 100⟩) = [] ∧
     Outcome.monthData? (get_main_layout_and_tomorrow_prayers (fun _ => NetResult.netError)
        ⟨[(⟨2024, 3, "Cairo", "Egypt"⟩, FileContent.malformed)], some "Cairo", some "Egypt"⟩
        [⟨[("Isha", TimingVal.raw 72000)]⟩, ⟨[("Fajr", TimingVal.raw 18000)]⟩]
        ⟨⟨2024, 3, 1⟩, 100⟩) =
      some (([⟨[("Isha", TimingVal.raw 72000)]⟩, ⟨[("Fajr", TimingVal.raw 18000)]⟩] :
          MonthSchedule).set ((⟨⟨2024, 3, 1⟩, 100⟩ : DateTime).date.day - 1)
        ⟨boundMap [("Isha", TimingVal.raw 72000)] (⟨⟨2024, 3, 1⟩, 100⟩ : DateTime).date⟩) ∧
     (∀ j, j ≠ (⟨⟨2024, 3, 1⟩, 100⟩ : DateTime).date.day - 1 →
      (([⟨[("Isha", TimingVal.raw 72000)]⟩, ⟨[("Fajr", TimingVal.raw 18000)]⟩] :
          MonthSchedule).set ((⟨⟨2024, 3, 1⟩, 100⟩ : DateTime).date.day - 1)
        ⟨boundMap [("Isha", TimingVal.raw 72000)] (⟨⟨2024, 3, 1⟩, 100⟩ : DateTime).date⟩)[j]? =
        ([⟨[("Isha", TimingVal.raw 72000)]⟩, ⟨[("Fajr", TimingVal.raw 18000)]⟩] :
          MonthSchedule)[j]?)) :=
  ⟨by decide,
   C10_resolve_frame (fun _ => NetResult.netError)
     ⟨[(⟨2024, 3, "Cairo", "Egypt"⟩, FileContent.malformed)], some "Cairo", some "Egypt"⟩
     [⟨[("Isha", TimingVal.raw 72000)]⟩, ⟨[("Fajr", TimingVal.raw 18000)]⟩]
     ⟨⟨2024, 3, 1⟩, 100⟩ ⟨[("Isha", TimingVal.raw 72000)]⟩ 72000
     (by decide) (by decide) (by decide) (by decide)⟩

/-! ## Claims C3 and C4: month-boundary rollover -/

theorem no_fileDelete_of_shape (evs : List Ev) (year month : Nat) (cit count : String)
    (h : ∀ e ∈ evs, ∃ k2, (e = Ev.cacheGet k2 ∨ e = Ev.netCall k2 ∨ e = Ev.fileWrite k2) ∧
      k2 = ⟨year, month, cit, count⟩) :
    ∀ k, Ev.fileDelete k ∉ evs := by
  intro k hk
  rcases h _ hk with ⟨k2, hor, _⟩
  rcases hor with h2 | h2 | h2 <;> exact Ev.noConfusion h2

/-- C3 (amended): past Isha on the last day of the month, rollover goes
through the calendar cache exactly once — for tomorrow's (year, month),
which is (year, month + 1) except in December, when it is (year + 1, 1) —
with at most one network call, and the only file deletion it can perform
is of the superseded month's file, appended to the trace strictly after
the fetch's events and only when the fetch returned data. -/
theorem C3_monthBoundary_fetch_once (net : CacheKey → NetResult) (st : St)
    (apiRes : MonthSchedule) (now : DateTime) (today : DaySchedule) (ishaSec : Nat)
    (c co : String)
    (h1 : apiRes[now.date.day - 1]? = some today)
    (h2 : lookupTiming today.timings "Isha" = some (TimingVal.raw ishaSec))
    (hpass : DateTime.ltb ⟨now.date, ishaSec⟩ now = true)
    (hld : now.date.day = daysInMonth now.date.year now.date.month)
    (hc : st.city = some c) (hco : st.country = some co) :
    countCacheGet (Outcome.events (get_main_layout_and_tomorrow_prayers net st apiRes now)) = 1 ∧
    Ev.cacheGet ⟨(nextDate now.date).year, (nextDate now.date).month, c, co⟩ ∈
      Outcome.events (get_main_layout_and_tomorrow_prayers net st apiRes now) ∧
    countNet (Outcome.events (get_main_layout_and_tomorrow_prayers net st apiRes now)) ≤ 1 ∧
    (∀ k, Ev.fileDelete k ∈
        Outcome.events (get_main_layout_and_tomorrow_prayers net st apiRes now) →
      k = ⟨now.date.year, now.date.month, c, co⟩ ∧
      ∃ m, (fetch_calender_data net st c co (nextDate now.date).year
              (nextDate now.date).month).1 = FetchResult.data m) ∧
    (Outcome.events (get_main_layout_and_tomorrow_prayers net st apiRes now) =
        (fetch_calender_data net st c co (nextDate now.date).year (nextDate now.date).month).2.2 ∨
     Outcome.events (get_main_layout_and_tomorrow_prayers net st apiRes now) =
        (fetch_calender_data net st c co (nextDate now.date).year (nextDate now.date).month).2.2
          ++ [Ev.fileDelete ⟨now.date.year, now.date.month, c, co⟩]) := by
  have hb := nextDate_lastDay now.date hld
  have hr := resolve_boundary net st apiRes now today ishaSec c co h1 h2 hpass hb hc hco
  obtain ⟨he1, he2, he3, he4⟩ :=
    fetch_events_shape net st c co (nextDate now.date).year (nextDate now.date).month
  rcases hF : fetch_calender_data net st c co (nextDate now.date).year
      (nextDate now.date).month with ⟨fr, st1, evs1⟩
  rw [hF] at hr he1 he2 he3 he4
  simp only [] at he1 he2 he3 he4
  have hnodel := no_fileDelete_of_shape evs1 (nextDate now.date).year (nextDate now.date).month
    c co he4
  rcases fr with _ | _ | m | _
  · simp only [hF] at hr ⊢
    rw [hr]
    simp only [Outcome.events]
    exact ⟨he1, he3, he2, fun k hk => absurd hk (hnodel k), Or.inl trivial⟩
  · simp only [hF] at hr ⊢
    rw [hr]
    simp only [Outcome.events]
    exact ⟨he1, he3, he2, fun k hk => absurd hk (hnodel k), Or.inl trivial⟩
  · rcases hidx : m[(nextDate now.date).day - 1]? with _ | newDay
    · simp only [hidx] at hr
      simp only [hF] at hr ⊢
      rw [hr]
      simp only [Outcome.events]
      exact ⟨he1, he3, he2, fun k hk => absurd hk (hnodel k), Or.inl trivial⟩
    · rcases hbt : bindTimings newDay.timings (nextDate now.date) with _ | bt
      · simp only [hidx, hbt] at hr
        simp only [hF] at hr ⊢
        rw [hr]
        simp only [Outcome.events]
        refine ⟨?_, List.mem_append_left _ he3, ?_, ?_, Or.inr trivial⟩
        · simp [countCacheGet, List.countP_append, isCacheGetEv] at he1 ⊢
          exact he1
        · simp [countNet, List.countP_append, isNetCallEv] at he2 ⊢
          exact he2
        · intro k hk
          rcases List.mem_append.mp hk with hk2 | hk2
          · exact absurd hk2 (hnodel k)
          · simp at hk2
            exact ⟨hk2, m, rfl⟩
      · simp only [hidx, hbt] at hr
        simp only [hF] at hr ⊢
        rw [hr]
        simp only [Outcome.events]
        refine ⟨?_, List.mem_append_left _ he3, ?_, ?_, Or.inr trivial⟩
        · simp [countCacheGet, List.countP_append, isCacheGetEv] at he1 ⊢
          exact he1
        · simp [countNet, List.countP_append, isNetCallEv] at he2 ⊢
          exact he2
        · intro k hk
          rcases List.mem_append.mp hk with hk2 | hk2
          · exact absurd hk2 (hnodel k)
          · simp at hk2
            exact ⟨hk2, m, rfl⟩
  · simp only [hF] at hr ⊢
    rw [hr]
    simp only [Outcome.events]
    exact ⟨he1, he3, he2, fun k hk => absurd hk (hnodel k), Or.inl trivial⟩

/-- Fixture for the month-boundary claims: a 31-day March schedule whose
every day has Isha at 20:00. -/
def sched3 : MonthSchedule := List.replicate 31 ⟨[("Isha", TimingVal.raw 72000)]⟩

def st3 : St := ⟨[], some "Cairo", some "Egypt"⟩

def net3 : CacheKey → NetResult := fun _ => NetResult.ok [⟨[("Fajr", TimingVal.raw 18000)]⟩]

/-- C3 counterexample: on 2024-12-31 past Isha the rollover performs its
single cache access for (2025, 1) — tomorrow's date — not for
(year, month + 1) = (2024, 13) as the claim literally states. -/
theorem C3_december_fetch_cex :
    (⟨⟨2024, 12, 31⟩, 73000⟩ : DateTime).date.day = daysInMonth 2024 12 ∧
    DateTime.ltb ⟨⟨2024, 12, 31⟩, 72000⟩ ⟨⟨2024, 12, 31⟩, 73000⟩ = true ∧
    countCacheGet (Outcome.events (get_main_layout_and_tomorrow_prayers net3 st3 sched3
      ⟨⟨2024, 12, 31⟩, 73000⟩)) = 1 ∧
    Ev.cacheGet ⟨2025, 1, "Cairo", "Egypt"⟩ ∈
      Outcome.events (get_main_layout_and_tomorrow_prayers net3 st3 sched3
        ⟨⟨2024, 12, 31⟩, 73000⟩) ∧
    Ev.cacheGet ⟨2024, 13, "Cairo", "Egypt"⟩ ∉
      Outcome.events (get_main_layout_and_tomorrow_prayers net3 st3 sched3
        ⟨⟨2024, 12, 31⟩, 73000⟩) := by
  decide

/-- C3 witness for the amended statement: 2024-03-31 past Isha. -/
theorem C3_monthBoundary_fetch_once_witness :
    sched3[(⟨⟨2024, 3, 31⟩, 73000⟩ : DateTime).date.day - 1]? =
      some ⟨[("Isha", TimingVal.raw 72000)]⟩ ∧
    lookupTiming (DaySchedule.timings ⟨[("Isha", TimingVal.raw 72000)]⟩) "Isha" =
      some (TimingVal.raw 72000) ∧
    DateTime.ltb ⟨(⟨⟨2024, 3, 31⟩, 73000⟩ : DateTime).date, 72000⟩ ⟨⟨2024, 3, 31⟩, 73000⟩ = true ∧
    (⟨⟨2024, 3, 31⟩, 73000⟩ : DateTime).date.day =
      daysInMonth (⟨⟨2024, 3, 31⟩, 73000⟩ : DateTime).date.year
        (⟨⟨2024, 3, 31⟩, 73000⟩ : DateTime).date.month ∧
    st3.city = some "Cairo" ∧ st3.country = some "Egypt" ∧
    (countCacheGet (Outcome.events (get_main_layout_and_tomorrow_prayers net3 st3 sched3
        ⟨⟨2024, 3, 31⟩, 73000⟩)) = 1 ∧
     Ev.cacheGet ⟨(nextDate (⟨⟨2024, 3, 31⟩, 73000⟩ : DateTime).date).year,
         (nextDate (⟨⟨2024, 3, 31⟩, 73000⟩ : DateTime).date).month, "Cairo", "Egypt"⟩ ∈
       Outcome.events (get_main_layout_and_tomorrow_prayers net3 st3 sched3
         ⟨⟨2024, 3, 31⟩, 73000⟩) ∧
     countNet (Outcome.events (get_main_layout_and_tomorrow_prayers net3 st3 sched3
       ⟨⟨2024, 3, 31⟩, 73000⟩)) ≤ 1 ∧
     (∀ k, Ev.fileDelete k ∈
         Outcome.events (get_main_layout_and_tomorrow_prayers net3 st3 sched3
           ⟨⟨2024, 3, 31⟩, 73000⟩) →
       k = ⟨(⟨⟨2024, 3, 31⟩, 73000⟩ : DateTime).date.year,
            (⟨⟨2024, 3, 31⟩, 73000⟩ : DateTime).date.month, "Cairo", "Egypt"⟩ ∧
       ∃ m, (fetch_calender_data net3 st3 "Cairo" "Egypt"
               (nextDate (⟨⟨2024, 3, 31⟩, 73000⟩ : DateTime).date).year
               (nextDate (⟨⟨2024, 3, 31⟩, 73000⟩ : DateTime).date).month).1 =
             FetchResult.data m) ∧
     (Outcome.events (get_main_layout_and_tomorrow_prayers net3 st3 sched3
         ⟨⟨2024, 3, 31⟩, 73000⟩) =
        (fetch_calender_data net3 st3 "Cairo" "Egypt"
          (nextDate (⟨⟨2024, 3, 31⟩, 73000⟩ : DateTime).date).year
          (nextDate (⟨⟨2024, 3, 31⟩, 73000⟩ : DateTime).date).month).2.2 ∨
      Outcome.events (get_main_layout_and_tomorrow_prayers net3 st3 sched3
         ⟨⟨2024, 3, 31⟩, 73000⟩) =
        (fetch_calender_data net3 st3 "Cairo" "Egypt"
          (nextDate (⟨⟨2024, 3, 31⟩, 73000⟩ : DateTime).date).year
          (nextDate (⟨⟨2024, 3, 31⟩, 73000⟩ : DateTime).date).month).2.2
          ++ [Ev.fileDelete ⟨(⟨⟨2024, 3, 31⟩, 73000⟩ : DateTime).date.year,
              (⟨⟨2024, 3, 31⟩, 73000⟩ : DateTime).date.month, "Cairo", "Egypt"⟩])) :=
  ⟨by decide, by decide, by decide, by decide, rfl, rfl,
   C3_monthBoundary_fetch_once net3 st3 sched3 ⟨⟨2024, 3, 31⟩, 73000⟩
     ⟨[("Isha", TimingVal.raw 72000)]⟩ 72000 "Cairo" "Egypt"
     (by decide) (by decide) (by decide) (by decide) rfl rfl⟩

/-- C4 (amended): when the required next-month fetch hits the network with
no cached file, a raised request exception ("RequestError", the design's
TransportFailure) makes the rollover delete the persisted city and country
and `sys.exit()`; but a non-200 response (`None`, the design's
LookupFailure) makes it crash on the `None["data"]` subscript with the
location settings left in place. -/
theorem C4_fetchFailure (net : CacheKey → NetResult) (st : St)
    (apiRes : MonthSchedule) (now : DateTime) (today : DaySchedule) (ishaSec : Nat)
    (c co : String)
    (h1 : apiRes[now.date.day - 1]? = some today)
    (h2 : lookupTiming today.timings "Isha" = some (TimingVal.raw ishaSec))
    (hpass : DateTime.ltb ⟨now.date, ishaSec⟩ now = true)
    (hld : now.date.day = daysInMonth now.date.year now.date.month)
    (hc : st.city = some c) (hco : st.country = some co)
    (hmiss : diskGet st.disk
      ⟨(nextDate now.date).year, (nextDate now.date).month, c, co⟩ = none) :
    (net ⟨(nextDate now.date).year, (nextDate now.date).month, c, co⟩ = NetResult.netError →
      get_main_layout_and_tomorrow_prayers net st apiRes now =
        Outcome.exitCleared ⟨st.disk, none, none⟩
          [Ev.cacheGet ⟨(nextDate now.date).year, (nextDate now.date).month, c, co⟩,
           Ev.netCall ⟨(nextDate now.date).year, (nextDate now.date).month, c, co⟩]) ∧
    (net ⟨(nextDate now.date).year, (nextDate now.date).month, c, co⟩ = NetResult.notOk →
      get_main_layout_and_tomorrow_prayers net st apiRes now =
        Outcome.crash st
          [Ev.cacheGet ⟨(nextDate now.date).year, (nextDate now.date).month, c, co⟩,
           Ev.netCall ⟨(nextDate now.date).year, (nextDate now.date).month, c, co⟩] ∧
      (Outcome.state (get_main_layout_and_tomorrow_prayers net st apiRes now)).city = some c ∧
      (Outcome.state (get_main_layout_and_tomorrow_prayers net st apiRes now)).country = some co) := by
  have hb := nextDate_lastDay now.date hld
  have hr := resolve_boundary net st apiRes now today ishaSec c co h1 h2 hpass hb hc hco
  constructor
  · intro hn
    have hf := fetch_miss_netError net st c co (nextDate now.date).year
      (nextDate now.date).month hmiss hn
    rw [hr, hf]
  · intro hn
    have hf := fetch_miss_notOk net st c co (nextDate now.date).year
      (nextDate now.date).month hmiss hn
    refine ⟨?_, ?_, ?_⟩
    · rw [hr, hf]
    · rw [hr, hf]
      exact hc
    · rw [hr, hf]
      exact hco

def net4 : CacheKey → NetResult := fun _ => NetResult.notOk

/-- C4 counterexample: with the next-month fetch failing as a
LookupFailure (non-200 response, `None`), the rollover neither clears the
location settings nor exits cleanly — it crashes with the saved city and
country still persisted, refuting the claim that both failure kinds clear
the settings. -/
theorem C4_lookupFailure_cex :
    net4 ⟨2024, 4, "Cairo", "Egypt"⟩ = NetResult.notOk ∧
    get_main_layout_and_tomorrow_prayers net4 st3 sched3 ⟨⟨2024, 3, 31⟩, 73000⟩ =
      Outcome.crash ⟨[], some "Cairo", some "Egypt"⟩
        [Ev.cacheGet ⟨2024, 4, "Cairo", "Egypt"⟩, Ev.netCall ⟨2024, 4, "Cairo", "Egypt"⟩] ∧
    (Outcome.state (get_main_layout_and_tomorrow_prayers net4 st3 sched3
      ⟨⟨2024, 3, 31⟩, 73000⟩)).city = some "Cairo" ∧
    (Outcome.state (get_main_layout_and_tomorrow_prayers net4 st3 sched3
      ⟨⟨2024, 3, 31⟩, 73000⟩)).country = some "Egypt" := by
  decide

def net4e : CacheKey → NetResult := fun _ => NetResult.netError

/-- C4 witness for the amended statement, exercising the TransportFailure
branch: settings cleared, session exits. -/
theorem C4_fetchFailure_witness :
    sched3[(⟨⟨2024, 3, 31⟩, 73000⟩ : DateTime).date.day - 1]? =
      some ⟨[("Isha", TimingVal.raw 72000)]⟩ ∧
    lookupTiming (DaySchedule.timings ⟨[("Isha", TimingVal.raw 72000)]⟩) "Isha" =
      some (TimingVal.raw 72000) ∧
    DateTime.ltb ⟨(⟨⟨2024, 3, 31⟩, 73000⟩ : DateTime).date, 72000⟩ ⟨⟨2024, 3, 31⟩, 73000⟩ = true ∧
    (⟨⟨2024, 3, 31⟩, 73000⟩ : DateTime).date.day =
      daysInMonth (⟨⟨2024, 3, 31⟩, 73000⟩ : DateTime).date.year
        (⟨⟨2024, 3, 31⟩, 73000⟩ : DateTime).date.month ∧
    st3.city = some "Cairo" ∧ st3.country = some "Egypt" ∧
    diskGet st3.disk ⟨(nextDate (⟨⟨2024, 3, 31⟩, 73000⟩ : DateTime).date).year,
      (nextDate (⟨⟨2024, 3, 31⟩, 73000⟩ : DateTime).date).month, "Cairo", "Egypt"⟩ = none ∧
    ((net4e ⟨(nextDate (⟨⟨2024, 3, 31⟩, 73000⟩ : DateTime).date).year,
        (nextDate (⟨⟨2024, 3, 31⟩, 73000⟩ : DateTime).date).month, "Cairo", "Egypt"⟩ =
          NetResult.netError →
      get_main_layout_and_tomorrow_prayers net4e st3 sched3 ⟨⟨2024, 3, 31⟩, 73000⟩ =
        Outcome.exitCleared ⟨st3.disk, none, none⟩
          [Ev.cacheGet ⟨(nextDate (⟨⟨2024, 3, 31⟩, 73000⟩ : DateTime).date).year,
             (nextDate (⟨⟨2024, 3, 31⟩, 73000⟩ : DateTime).date).month, "Cairo", "Egypt"⟩,
           Ev.netCall ⟨(nextDate (⟨⟨2024, 3, 31⟩, 73000⟩ : DateTime).date).year,
             (nextDate (⟨⟨2024, 3, 31⟩, 73000⟩ : DateTime).date).month, "Cairo", "Egypt"⟩]) ∧
     (net4e ⟨(nextDate (⟨⟨2024, 3, 31⟩, 73000⟩ : DateTime).date).year,
        (nextDate (⟨⟨2024, 3, 31⟩, 73000⟩ : DateTime).date).month, "Cairo", "Egypt"⟩ =
          NetResult.notOk →
      get_main_layout_and_tomorrow_prayers net4e st3 sched3 ⟨⟨2024, 3, 31⟩, 73000⟩ =
        Outcome.crash st3
          [Ev.cacheGet ⟨(nextDate (⟨⟨2024, 3, 31⟩, 73000⟩ : DateTime).date).year,
             (nextDate (⟨⟨2024, 3, 31⟩, 73000⟩ : DateTime).date).month, "Cairo", "Egypt"⟩,
           Ev.netCall ⟨(nextDate (⟨⟨2024, 3, 31⟩, 73000⟩ : DateTime).date).year,
             (nextDate (⟨⟨2024, 3, 31⟩, 73000⟩ : DateTime).date).month, "Cairo", "Egypt"⟩] ∧
      (Outcome.state (get_main_layout_and_tomorrow_prayers net4e st3 sched3
        ⟨⟨2024, 3, 31⟩, 73000⟩)).city = some "Cairo" ∧
      (Outcome.state (get_main_layout_and_tomorrow_prayers net4e st3 sched3
        ⟨⟨2024, 3, 31⟩, 73000⟩)).country = some "Egypt")) :=
  ⟨by decide, by decide, by decide, by decide, rfl, rfl, by decide,
   C4_fetchFailure net4e st3 sched3 ⟨⟨2024, 3, 31⟩, 73000⟩
     ⟨[("Isha", TimingVal.raw 72000)]⟩ 72000 "Cairo" "Egypt"
     (by decide) (by decide) (by decide) (by decide) rfl rfl (by decide)⟩

/-! ## Claim C8: the queue across a refill tick -/

def sched8 : MonthSchedule := [⟨[("Fajr", TimingVal.raw 18000), ("Isha", TimingVal.raw 72000)]⟩]

def st8 : St :=
  ⟨[(⟨2024, 3, "Cairo", "Egypt"⟩, FileContent.good sched8)], some "Cairo", some "Egypt"⟩

def net8 : CacheKey → NetResult := fun _ => NetResult.netError

/-- C8 counterexample: at `now` equal to today's Isha timestamp the pop
condition `now >= front` fires and empties the queue, but the refill's
rollover test `now > Isha` does not — the resolution recomputes *today's*
prayers, all of which are at or before `now`, so the tick hands the loop
an empty queue and the very next front read faults. -/
theorem C8_exactIsha_cex :
    DateTime.leb ⟨⟨2024, 3, 1⟩, 72000⟩ ⟨⟨2024, 3, 1⟩, 72000⟩ = true ∧
    TickResult.upcoming? (tick net8 [("Isha", ⟨⟨2024, 3, 1⟩, 72000⟩)] sched8 st8
      ⟨⟨2024, 3, 1⟩, 72000⟩) = some [] ∧
    peekNext ([] : List (String × DateTime)) = Except.error () :=
  ⟨by decide, by decide, rfl⟩

/-- C8 (amended): when the pop that empties the queue happens strictly
after today's Isha (and the cached month provides today's and tomorrow's
entries, tomorrow being in the same month with some tracked prayer), the
same tick refills the queue with tomorrow's tracked prayers — a non-empty
list every entry of which is dated tomorrow and strictly after `now` — so
the next front read succeeds.  At `now` exactly equal to the Isha
timestamp the refill can instead leave the queue empty. -/
theorem C8_tick_refill (net : CacheKey → NetResult) (st : St) (m mdOld : MonthSchedule)
    (now : DateTime) (today nextDay : DaySchedule) (ishaSec : Nat) (c co : String)
    (p : String) (t : DateTime)
    (hc : st.city = some c) (hco : st.country = some co)
    (hdisk : diskGet st.disk ⟨now.date.year, now.date.month, c, co⟩ =
      some (FileContent.good m))
    (hpop : DateTime.leb t now = true)
    (h1 : m[now.date.day - 1]? = some today)
    (h2 : lookupTiming today.timings "Isha" = some (TimingVal.raw ishaSec))
    (hpass : DateTime.ltb ⟨now.date, ishaSec⟩ now = true)
    (hsm : (nextDate now.date).month = now.date.month)
    (hnext : m[now.date.day]? = some nextDay)
    (hraw : allRaw nextDay.timings = true)
    (hne : nextDay.timings.any (fun e => isTracked e.1) = true) :
    tick net [(p, t)] mdOld st now =
      TickResult.cont
        ((nextDay.timings.filter (fun e => isTracked e.1)).map
          (fun e => (e.1, (⟨nextDate now.date, e.2.secD⟩ : DateTime))))
        (m.set now.date.day ⟨boundMap nextDay.timings (nextDate now.date)⟩) st ∧
    (nextDay.timings.filter (fun e => isTracked e.1)).map
        (fun e => (e.1, (⟨nextDate now.date, e.2.secD⟩ : DateTime))) ≠ [] ∧
    (∀ e ∈ (nextDay.timings.filter (fun e => isTracked e.1)).map
        (fun e => (e.1, (⟨nextDate now.date, e.2.secD⟩ : DateTime))),
      DateTime.ltb now e.2 = true ∧ e.2.date = nextDate now.date) ∧
    (∃ x, peekNext ((nextDay.timings.filter (fun e => isTracked e.1)).map
        (fun e => (e.1, (⟨nextDate now.date, e.2.secD⟩ : DateTime)))) = Except.ok x) := by
  have hfet := fetch_hit_good net st c co now.date.year now.date.month m hdisk
  have hres := resolve_passed_sameMonth net st m now today nextDay ishaSec
    h1 h2 hpass hsm hnext hraw
  rw [buildUpcoming_boundMap_next nextDay.timings now] at hres
  have hmem : ∀ e ∈ (nextDay.timings.filter (fun e => isTracked e.1)).map
      (fun e => (e.1, (⟨nextDate now.date, e.2.secD⟩ : DateTime))),
      DateTime.ltb now e.2 = true ∧ e.2.date = nextDate now.date := by
    intro e he
    rcases List.mem_map.mp he with ⟨a, _, rfl⟩
    refine ⟨?_, rfl⟩
    rcases now with ⟨d, s⟩
    simpa using ltb_next d s a.2.secD
  have hfne : (nextDay.timings.filter (fun e => isTracked e.1)).map
      (fun e => (e.1, (⟨nextDate now.date, e.2.secD⟩ : DateTime))) ≠ [] := by
    rcases List.any_eq_true.mp hne with ⟨x, hx, hxt⟩
    simp only [ne_eq, List.map_eq_nil_iff, List.filter_eq_nil_iff]
    intro hall
    exact absurd hxt (by simpa using hall x hx)
  refine ⟨?_, hfne, hmem, ?_⟩
  · unfold tick
    simp [hpop, hc, hco, hfet, hres]
  · rcases hl : (nextDay.timings.filter (fun e => isTracked e.1)).map
        (fun e => (e.1, (⟨nextDate now.date, e.2.secD⟩ : DateTime))) with _ | ⟨a, rest⟩
    · exact absurd hl hfne
    · refine ⟨a, ?_⟩
      rw [hl]
      rfl

def m8 : MonthSchedule :=
  [⟨[("Isha", TimingVal.raw 72000)]⟩,
   ⟨[("Fajr", TimingVal.raw 18000), ("Isha", TimingVal.raw 72900)]⟩]

def st8b : St := ⟨[(⟨2024, 3, "Cairo", "Egypt"⟩, FileContent.good m8)],
  some "Cairo", some "Egypt"⟩

/-- C8 witness for the amended statement: the last queue entry (Isha,
20:00) pops at 20:01; the tick refills with day 2's prayers, all dated
tomorrow and after `now`, and the next front read succeeds. -/
theorem C8_tick_refill_witness :
    st8b.city = some "Cairo" ∧
    st8b.country = some "Egypt" ∧
    diskGet st8b.disk ⟨(⟨⟨2024, 3, 1⟩, 72060⟩ : DateTime).date.year,
      (⟨⟨2024, 3, 1⟩, 72060⟩ : DateTime).date.month, "Cairo", "Egypt"⟩ =
      some (FileContent.good m8) ∧
    DateTime.leb ⟨⟨2024, 3, 1⟩, 72000⟩ ⟨⟨2024, 3, 1⟩, 72060⟩ = true ∧
    m8[(⟨⟨2024, 3, 1⟩, 72060⟩ : DateTime).date.day - 1]? =
      some ⟨[("Isha", TimingVal.raw 72000)]⟩ ∧
    lookupTiming (DaySchedule.timings ⟨[("Isha", TimingVal.raw 72000)]⟩) "Isha" =
      some (TimingVal.raw 72000) ∧
    DateTime.ltb ⟨(⟨⟨2024, 3, 1⟩, 72060⟩ : DateTime).date, 72000⟩ ⟨⟨2024, 3, 1⟩, 72060⟩ = true ∧
    (nextDate (⟨⟨2024, 3, 1⟩, 72060⟩ : DateTime).date).month =
      (⟨⟨2024, 3, 1⟩, 72060⟩ : DateTime).date.month ∧
    m8[(⟨⟨2024, 3, 1⟩, 72060⟩ : DateTime).date.day]? =
      some ⟨[("Fajr", TimingVal.raw 18000), ("Isha", TimingVal.raw 72900)]⟩ ∧
    allRaw [("Fajr", TimingVal.raw 18000), ("Isha", TimingVal.raw 72900)] = true ∧
    ([("Fajr", TimingVal.raw 18000), ("Isha", TimingVal.raw 72900)] : Timings).any
      (fun e => isTracked e.1) = true ∧
    (tick net8 [("Isha", ⟨⟨2024, 3, 1⟩, 72000⟩)] m8 st8b ⟨⟨2024, 3, 1⟩, 72060⟩ =
      TickResult.cont
        ((([("Fajr", TimingVal.raw 18000), ("Isha", TimingVal.raw 72900)] : Timings).filter
            (fun e => isTracked e.1)).map
          (fun e => (e.1, (⟨nextDate (⟨⟨2024, 3, 1⟩, 72060⟩ : DateTime).date, e.2.secD⟩ : DateTime))))
        (m8.set (⟨⟨2024, 3, 1⟩, 72060⟩ : DateTime).date.day
          ⟨boundMap [("Fajr", TimingVal.raw 18000), ("Isha", TimingVal.raw 72900)]
            (nextDate (⟨⟨2024, 3, 1⟩, 72060⟩ : DateTime).date)⟩) st8b ∧
     (([("Fajr", TimingVal.raw 18000), ("Isha", TimingVal.raw 72900)] : Timings).filter
         (fun e => isTracked e.1)).map
        (fun e => (e.1, (⟨nextDate (⟨⟨2024, 3, 1⟩, 72060⟩ : DateTime).date, e.2.secD⟩ : DateTime))) ≠ [] ∧
     (∀ e ∈ (([("Fajr", TimingVal.raw 18000), ("Isha", TimingVal.raw 72900)] : Timings).filter
         (fun e => isTracked e.1)).map
        (fun e => (e.1, (⟨nextDate (⟨⟨2024, 3, 1⟩, 72060⟩ : DateTime).date, e.2.secD⟩ : DateTime))),
       DateTime.ltb ⟨⟨2024, 3, 1⟩, 72060⟩ e.2 = true ∧
       e.2.date = nextDate (⟨⟨2024, 3, 1⟩, 72060⟩ : DateTime).date) ∧
     (∃ x, peekNext ((([("Fajr", TimingVal.raw 18000), ("Isha", TimingVal.raw 72900)] : Timings).filter
         (fun e => isTracked e.1)).map
        (fun e => (e.1, (⟨nextDate (⟨⟨2024, 3, 1⟩, 72060⟩ : DateTime).date, e.2.secD⟩ : DateTime)))) =
        Except.ok x)) :=
  ⟨rfl, rfl, by decide, by decide, by decide, by decide, by decide, by decide, by decide,
   by decide, by decide,
   C8_tick_refill net8 st8b m8 m8 ⟨⟨2024, 3, 1⟩, 72060⟩
     ⟨[("Isha", TimingVal.raw 72000)]⟩
     ⟨[("Fajr", TimingVal.raw 18000), ("Isha", TimingVal.raw 72900)]⟩
     72000 "Cairo" "Egypt" "Isha" ⟨⟨2024, 3, 1⟩, 72000⟩
     rfl rfl (by decide) (by decide) (by decide) (by decide) (by decide) (by decide)
     (by decide) (by decide) (by decide)⟩
